import Mathlib

/-!
Verification of the storage snapshot/restore engine of the
save-private-window-cookies browser extension.

The definitions below are shallow embeddings of the JavaScript source:
JS objects used as string-keyed maps become association lists
(`List (String × _)`) so that property-insertion order is preserved,
`null`/absent fields become `Option`, and the asynchronous callback
protocols of the background and content scripts are sequentialized into
pure functions over explicit state, with oracle parameters standing in
for the outcomes of message sends and storage-engine operations.
-/

namespace Ext

/-! ### JS object-as-map primitives

`assocSet m k v` models the JS assignment `m[k] = v` on a plain object:
an existing property keeps its enumeration position and gets the new
value, a new property is appended at the end.  `assocGet` models `m[k]`.
-/

def assocSet {α : Type} (m : List (String × α)) (k : String) (v : α) :
    List (String × α) :=
  if m.any (fun p => p.1 == k) then
    m.map (fun p => if p.1 == k then (k, v) else p)
  else
    m ++ [(k, v)]

def assocGet {α : Type} (m : List (String × α)) (k : String) : Option α :=
  (m.find? (fun p => p.1 == k)).map (fun p => p.2)

theorem find?_exists_of_any {α : Type} {m : List (String × α)} {q : String × α → Bool}
    (hm : m.any q = true) : ∃ x, List.find? q m = some x := by
  cases hfind : List.find? q m with
  | some x => exact ⟨x, rfl⟩
  | none =>
    rcases List.any_eq_true.mp hm with ⟨x, hx, hxq⟩
    exact absurd hxq (by simpa using List.find?_eq_none.mp hfind x hx)

theorem assocGet_assocSet_same {α : Type} (m : List (String × α)) (k : String) (v : α) :
    assocGet (assocSet m k v) k = some v := by
  unfold assocSet assocGet
  by_cases hm : m.any (fun p => p.1 == k)
  · rw [if_pos hm, List.find?_map]
    have hpred : ((fun p : String × α => p.1 == k) ∘
        fun p => if p.1 == k then (k, v) else p) = fun p => p.1 == k := by
      funext p
      by_cases hp : p.1 = k <;> simp [hp]
    rw [hpred]
    rcases find?_exists_of_any hm with ⟨x, hx⟩
    have hxk := List.find?_some hx
    simp only [] at hxk
    simp [hx, Option.map_map]
    simp [Function.comp, (by simpa using hxk : x.1 = k)]
  · rw [if_neg hm, List.find?_append]
    have hnone : List.find? (fun p => p.1 == k) m = none := by
      rw [List.find?_eq_none]
      intro x hx hxk
      exact hm (List.any_eq_true.mpr ⟨x, hx, hxk⟩)
    simp [hnone, List.find?]

theorem assocGet_assocSet_ne {α : Type} (m : List (String × α)) (k o : String) (v : α)
    (h : o ≠ k) :
    assocGet (assocSet m k v) o = assocGet m o := by
  unfold assocSet assocGet
  by_cases hm : m.any (fun p => p.1 == k)
  · rw [if_pos hm, List.find?_map]
    have hpred : ((fun p : String × α => p.1 == o) ∘
        fun p => if p.1 == k then (k, v) else p) = fun p => p.1 == o := by
      funext p
      by_cases hp : p.1 = k
      · simp [hp, (by simpa using Ne.symm h : (k == o) = false),
          (by rw [hp]; simpa using Ne.symm h : (p.1 == o) = false)]
      · simp [hp]
    rw [hpred]
    cases hfind : List.find? (fun p : String × α => p.1 == o) m with
    | none => simp
    | some x =>
      have hxo := List.find?_some hfind
      have hxk : ¬ x.1 = k := by
        simpa [(by simpa using hxo : x.1 = o)] using h
      simp [Option.map_map, Function.comp, hxk]
  · rw [if_neg hm, List.find?_append]
    have hko : (k == o) = false := by simpa using Ne.symm h
    simp [List.find?, hko]

/-! ### Snapshot data model (content.js / background.js)

Record values and keys stored in IndexedDB are opaque to the extension's
snapshot logic (they are structured-cloned and re-`put` verbatim), so the
model carries them as uninterpreted strings.
-/

abbrev JsVal := String

/-- An object store's key path: a string or an array of strings in JS. -/
inductive KeyPath where
  | single (path : String)
  | composite (paths : List String)
deriving DecidableEq, Repr

structure IndexSnap where
  name : String
  keyPath : KeyPath
  unique : Bool
  multiEntry : Bool
deriving DecidableEq, Repr

/-- One captured record: `{ key: keys[i], value: records[i] }`. -/
structure RecordPair where
  key : JsVal
  value : JsVal
deriving DecidableEq, Repr

structure StoreSnap where
  name : String
  /-- `store.keyPath`; `none` models the JS `null` (out-of-line keys). -/
  keyPath : Option KeyPath
  autoIncrement : Bool
  indexes : List IndexSnap
  data : List RecordPair
deriving DecidableEq, Repr

structure DBSnap where
  name : String
  version : Nat
  objectStores : List StoreSnap
deriving DecidableEq, Repr

/-- One serialized cache entry, as pushed by `getCacheData`. -/
structure CacheEntry where
  url : String
  status : Nat
  statusText : String
  headers : List (String × String)
  body : Option String
  rtype : String
deriving DecidableEq, Repr

/-- One captured cache: `{ name, entries, sizeMB }`; the model records the
running byte count `cacheSize` from which the `sizeMB` string is printed. -/
structure CacheSnap where
  name : String
  entries : List CacheEntry
  sizeBytes : Nat
deriving DecidableEq, Repr

/-- The per-origin snapshot stored under `webStorage[origin]`. -/
structure OriginData where
  localStorage : Option (List (String × String))
  indexedDB : Option (List DBSnap)
  cacheStorage : Option (List CacheSnap)
deriving DecidableEq, Repr

/-- The persisted `webStorage` blob: origin → snapshot. -/
abbrev Repo := List (String × OriginData)

/-! ### OriginSnapshotStore: the saveOriginData merge-write (background.js)

`saveOriginData` embeds the `message.action === 'saveOriginData'` handler:
it reads the current `webStorage` blob, builds `originData` from the
categories present in the incoming message and assigns
`webStorage[data.origin] = originData` when at least one category is
non-empty.  `spreadMerge` embeds the `{ ...existing.webStorage,
...webStorage }` merge used by `saveWebStorage`.
-/

/-- The content-script payload of a `saveOriginData` message. -/
structure IncomingData where
  origin : String
  localStorage : Option (List (String × String))
  indexedDB : Option (List DBSnap)
  cacheStorage : Option (List CacheSnap)
deriving DecidableEq, Repr

def buildOriginData (d : IncomingData) : OriginData :=
  { localStorage :=
      match d.localStorage with
      | some ls => if ls.length > 0 then some ls else none
      | none => none
    indexedDB :=
      match d.indexedDB with
      | some dbs => if dbs.length > 0 then some dbs else none
      | none => none
    cacheStorage :=
      match d.cacheStorage with
      | some cs => if cs.length > 0 then some cs else none
      | none => none }

def originDataIsEmpty (od : OriginData) : Bool :=
  od.localStorage.isNone && od.indexedDB.isNone && od.cacheStorage.isNone

def saveOriginData (repo : Repo) (d : IncomingData) : Repo :=
  let od := buildOriginData d
  if originDataIsEmpty od then repo else assocSet repo d.origin od

/-- `{ ...existing, ...incoming }` on origin-keyed objects. -/
def spreadMerge (existing incoming : Repo) : Repo :=
  incoming.foldl (fun acc p => assocSet acc p.1 p.2) existing

def c1Db : DBSnap := { name := "db", version := 1, objectStores := [] }

def c1Repo : Repo :=
  [("https://a.example",
    { localStorage := some [("k", "v")], indexedDB := none, cacheStorage := none })]

def c1Incoming : IncomingData :=
  { origin := "https://a.example", localStorage := none
    indexedDB := some [c1Db], cacheStorage := none }

/-- C1 counterexample: an origin whose persisted snapshot holds a
localStorage category receives a merge-write carrying only an indexedDB
category; the handler replaces the whole origin entry, so the previously
stored localStorage is dropped, contradicting the claim that it is left
untouched. -/
theorem saveOriginData_drops_absent_category_cex :
    assocGet (saveOriginData c1Repo c1Incoming) "https://a.example" =
      some { localStorage := none, indexedDB := some [c1Db], cacheStorage := none } := by
  decide

/-- C1 (amended): the merge-write overlays at origin granularity, not at
category granularity: whenever the incoming write carries at least one
non-empty category, the target origin's stored snapshot becomes exactly
the incoming categories (previously stored categories absent from the
write are dropped), while every other origin's snapshot is preserved. -/
theorem saveOriginData_origin_level_merge (repo : Repo) (d : IncomingData)
    (h : originDataIsEmpty (buildOriginData d) = false) :
    assocGet (saveOriginData repo d) d.origin = some (buildOriginData d) ∧
    ∀ o, o ≠ d.origin → assocGet (saveOriginData repo d) o = assocGet repo o := by
  unfold saveOriginData
  simp only [h, if_neg, Bool.false_eq_true, if_false]
  exact ⟨assocGet_assocSet_same repo d.origin (buildOriginData d),
    fun o ho => assocGet_assocSet_ne repo d.origin o (buildOriginData d) ho⟩

def c1WitnessRepo : Repo :=
  [("https://b.example",
    { localStorage := some [("x", "1")], indexedDB := none, cacheStorage := none })]

def c1WitnessIncoming : IncomingData :=
  { origin := "https://c.example", localStorage := some [("y", "2")]
    indexedDB := none, cacheStorage := none }

/-- Witness for the amended C1 theorem at a concrete repository and write. -/
theorem saveOriginData_origin_level_merge_witness :
    originDataIsEmpty (buildOriginData c1WitnessIncoming) = false ∧
    assocGet (saveOriginData c1WitnessRepo c1WitnessIncoming) c1WitnessIncoming.origin =
      some (buildOriginData c1WitnessIncoming) ∧
    assocGet (saveOriginData c1WitnessRepo c1WitnessIncoming) "https://b.example" =
      assocGet c1WitnessRepo "https://b.example" := by
  have h := saveOriginData_origin_level_merge c1WitnessRepo c1WitnessIncoming (by decide)
  exact ⟨by decide, h.1, h.2 "https://b.example" (by decide)⟩

/-! ### Restore delivery on tab load (background.js onTabUpdated)

`onTabUpdated` embeds the `chrome.tabs.onUpdated` listener.  The listener
fires when an incognito tab reaches `status === 'complete'`, looks up the
tab's origin in the stored `webStorage` blob and sends a `setStorageData`
message; if the send throws (content script not yet ready) it retries the
identical send once after a 500 ms `setTimeout`, and gives up if that
fails too.  The retry closure re-uses the captured `tabId`, `origin` and
`webStorage[origin]` and consults no tab state, so the model's
`tabOriginAtRetry` parameter — the origin the tab actually shows when the
timer fires — is ignored by the embedded code.  `sendFails` is the oracle
for the first `chrome.tabs.sendMessage` throwing.
-/

structure Tab where
  incognito : Bool
  /-- `changeInfo.status` as reported to the listener. -/
  status : String
  url : String
deriving DecidableEq, Repr

/-- One attempted `setStorageData` message to a tab. -/
structure Delivery where
  tabId : Nat
  origin : String
  data : OriginData
  clearFirst : Bool
deriving DecidableEq, Repr

/-- Characters of the authority component: everything up to the first
slash after the scheme separator. -/
def upToSlash : List Char → List Char
  | [] => []
  | c :: cs => if c = '/' then [] else c :: upToSlash cs

/-- Models `new URL(url).origin` for the http/https URLs the extension
handles: the scheme plus the authority component; non-http(s) strings
parse to none. -/
def getOriginFromUrl (url : String) : Option String :=
  if ("http://".toList).isPrefixOf url.toList then
    some ("http://" ++ String.mk (upToSlash (url.toList.drop 7)))
  else if ("https://".toList).isPrefixOf url.toList then
    some ("https://" ++ String.mk (upToSlash (url.toList.drop 8)))
  else
    none

/-- Fixed delay before the single retry (`setTimeout(..., 500)`). -/
def retryDelayMs : Nat := 500

def onTabUpdated (tabId : Nat) (tab : Tab) (extensionEnabled : Bool)
    (webStorage : Repo) (sendFails : Bool) (tabOriginAtRetry : Option String) :
    List Delivery :=
  if !tab.incognito || tab.status != "complete" then []
  else if !extensionEnabled then []
  else
    match getOriginFromUrl tab.url with
    | none => []
    | some origin =>
      match assocGet webStorage origin with
      | none => []
      | some data =>
        let attempt : Delivery := ⟨tabId, origin, data, false⟩
        if sendFails then [attempt, attempt] else [attempt]

/-- Both `tabs.onUpdated` load-complete events of a quick succession, run
through the same listener against the same stored state: the listener
keeps no in-flight marker, so the two invocations are independent. -/
def twoLoadCompleteEvents (tabId : Nat) (tab : Tab) (extensionEnabled : Bool)
    (webStorage : Repo) (sendFails₁ sendFails₂ : Bool) :
    List Delivery × List Delivery :=
  (onTabUpdated tabId tab extensionEnabled webStorage sendFails₁ none,
   onTabUpdated tabId tab extensionEnabled webStorage sendFails₂ none)

def c2Data : OriginData :=
  { localStorage := some [("s", "1")], indexedDB := none, cacheStorage := none }

def c2Repo : Repo := [("https://shop.example", c2Data)]

def c2Tab : Tab :=
  { incognito := true, status := "complete", url := "https://shop.example/cart" }

/-- C2 counterexample: the first send fails and, by the time the 500 ms
retry timer fires, the tab has navigated to a different origin; the
listener still sends the stale origin's snapshot to the tab (and it made
only two attempts, not three).  This contradicts the claimed per-attempt
re-validation under which no delivery may happen for a stale origin. -/
theorem onTabUpdated_stale_delivery_cex :
    onTabUpdated 7 c2Tab true c2Repo true (some "https://evil.example") =
      [⟨7, "https://shop.example", c2Data, false⟩,
       ⟨7, "https://shop.example", c2Data, false⟩] ∧
    some "https://evil.example" ≠ some "https://shop.example" := by
  constructor
  · decide
  · decide

/-- C2 (amended): delivery is attempted at most twice — once immediately
and, when the first send fails, once more after the fixed 500 ms delay —
and the listener never re-validates the tab before the retry: the
attempt list is the same whatever origin the tab shows when the timer
fires, every attempt carries the origin computed at load-complete time,
and a failed first send always produces the retry. -/
theorem onTabUpdated_two_attempts_no_revalidation (tabId : Nat) (tab : Tab)
    (enabled : Bool) (ws : Repo) (sendFails : Bool) (o₁ o₂ : Option String) :
    (onTabUpdated tabId tab enabled ws sendFails o₁).length ≤ 2 ∧
    onTabUpdated tabId tab enabled ws sendFails o₁ =
      onTabUpdated tabId tab enabled ws sendFails o₂ ∧
    (∀ d ∈ onTabUpdated tabId tab enabled ws sendFails o₁,
      some d.origin = getOriginFromUrl tab.url ∧ assocGet ws d.origin = some d.data ∧
        d.clearFirst = false) ∧
    (sendFails = true →
      ∀ origin data, getOriginFromUrl tab.url = some origin →
        assocGet ws origin = some data →
        tab.incognito = true → tab.status = "complete" → enabled = true →
        onTabUpdated tabId tab enabled ws sendFails o₁ =
          [⟨tabId, origin, data, false⟩, ⟨tabId, origin, data, false⟩] ∧
        retryDelayMs = 500) := by
  refine ⟨?_, ?_, ?_, ?_⟩
  · unfold onTabUpdated
    split
    · simp
    · split
      · simp
      · split
        · simp
        · split
          · simp
          · split <;> simp
  · rfl
  · intro d hd
    unfold onTabUpdated at hd
    split at hd
    · exact absurd hd (by simp)
    · split at hd
      · exact absurd hd (by simp)
      · split at hd
        · exact absurd hd (by simp)
        · rename_i origin horig
          split at hd
          · exact absurd hd (by simp)
          · rename_i data hdata
            have hde : d = ⟨tabId, origin, data, false⟩ := by
              split at hd <;> simpa using hd
            subst hde
            exact ⟨horig.symm, hdata, rfl⟩
  · intro hs origin data horig hdata hinc hst hen
    subst hs hen
    unfold onTabUpdated
    rw [if_neg (by simp [hinc, hst])]
    simp [horig, hdata, retryDelayMs]

/-- Witness for the amended C2 theorem at a failing first send and a tab
that navigated away before the retry. -/
theorem onTabUpdated_two_attempts_no_revalidation_witness :
    (onTabUpdated 3 c2Tab true c2Repo true (some "https://other.example")).length ≤ 2 ∧
    onTabUpdated 3 c2Tab true c2Repo true (some "https://other.example") =
      onTabUpdated 3 c2Tab true c2Repo true none ∧
    onTabUpdated 3 c2Tab true c2Repo true (some "https://other.example") =
      [⟨3, "https://shop.example", c2Data, false⟩,
       ⟨3, "https://shop.example", c2Data, false⟩] ∧
    retryDelayMs = 500 := by
  have h := onTabUpdated_two_attempts_no_revalidation 3 c2Tab true c2Repo true
    (some "https://other.example") none
  have h4 := h.2.2.2 rfl "https://shop.example" c2Data (by decide) (by decide) rfl rfl rfl
  exact ⟨h.1, h.2.1, h4.1, h4.2⟩

def c3Tab : Tab :=
  { incognito := true, status := "complete", url := "https://forum.example/t/1" }

def c3Data : OriginData :=
  { localStorage := some [("theme", "dark")], indexedDB := none, cacheStorage := none }

def c3Repo : Repo := [("https://forum.example", c3Data)]

/-- C3 counterexample: two load-complete events in quick succession for
the same (tabId, origin) each trigger their own delivery attempt
sequence — the pair of traces is two non-empty delivery sequences, not
one — because the listener has no dedup key or in-flight marker. -/
theorem twoLoadCompleteEvents_double_delivery_cex :
    twoLoadCompleteEvents 11 c3Tab true c3Repo false false =
      ([⟨11, "https://forum.example", c3Data, false⟩],
       [⟨11, "https://forum.example", c3Data, false⟩]) ∧
    ([⟨11, "https://forum.example", c3Data, false⟩] : List Delivery) ≠ [] := by
  constructor
  · decide
  · decide

/-- C3 (amended): there is no restore dedup: every load-complete event
for an incognito tab whose origin has stored data triggers its own
delivery attempt sequence, so two events in quick succession for the
same (tabId, origin) yield two (identical, independently produced)
non-empty delivery sequences. -/
theorem twoLoadCompleteEvents_no_dedup (tabId : Nat) (tab : Tab) (ws : Repo)
    (sf₁ sf₂ : Bool) (origin : String) (data : OriginData)
    (hinc : tab.incognito = true) (hst : tab.status = "complete")
    (horig : getOriginFromUrl tab.url = some origin)
    (hdata : assocGet ws origin = some data) :
    (twoLoadCompleteEvents tabId tab true ws sf₁ sf₂).1 ≠ [] ∧
    (twoLoadCompleteEvents tabId tab true ws sf₁ sf₂).2 ≠ [] ∧
    (sf₁ = sf₂ →
      (twoLoadCompleteEvents tabId tab true ws sf₁ sf₂).1 =
        (twoLoadCompleteEvents tabId tab true ws sf₁ sf₂).2) := by
  unfold twoLoadCompleteEvents onTabUpdated
  simp only [hinc, hst, horig, hdata, Bool.not_true, ne_eq, String.reduceEq,
    not_false_eq_true, Bool.false_or, Bool.or_false, decide_True, decide_False]
  refine ⟨?_, ?_, ?_⟩
  · cases sf₁ <;> simp
  · cases sf₂ <;> simp
  · intro h; subst h; rfl

/-- Witness for the amended C3 theorem at a concrete repository and tab. -/
theorem twoLoadCompleteEvents_no_dedup_witness :
    (twoLoadCompleteEvents 12 c3Tab true c3Repo false false).1 ≠ [] ∧
    (twoLoadCompleteEvents 12 c3Tab true c3Repo false false).2 ≠ [] ∧
    (twoLoadCompleteEvents 12 c3Tab true c3Repo false false).1 =
      (twoLoadCompleteEvents 12 c3Tab true c3Repo false false).2 := by
  have h := twoLoadCompleteEvents_no_dedup 12 c3Tab c3Repo false false
    "https://forum.example" c3Data (by decide) (by decide) (by decide) (by decide)
  exact ⟨h.1, h.2.1, h.2.2 rfl⟩

/-! ### Size-governed Cache API capture (part_000 getCacheData)

The size-governed content-script revision's `getCacheData(maxSizeMB)`
walks the cache names, and per cache walks the request keys, skipping an
entry when the inner `totalSize + cacheSize >= maxBytes` check trips
(breaking out of the cache) and skipping a whole cache when the outer
`totalSize >= maxBytes` check trips.  A response body is serialized as
text when `response.text()` succeeds, else base64-encoded from the raw
buffer; per-entry caps are checked on the content-length header, the
text length and the buffer byte length.  The model's `RawResponse`
carries the outcomes of the asynchronous body reads.
-/

def MB : Nat := 1024 * 1024

def MAX_SINGLE_ENTRY_MB : Nat := 5

/-- The per-entry byte ceiling `MAX_SINGLE_ENTRY_MB * MB`. -/
def entryCap : Nat := MAX_SINGLE_ENTRY_MB * MB

/-- 64 KiB: the fixed chunk size of the chunked base64 encoder. -/
def chunkSizeBytes : Nat := 65536

/-- The successive chunks of the buffer, as walked by the chunked loop
`for (let i = 0; i < bytes.length; i += chunkSize)`. -/
def chunksOf (l : List Nat) : List (List Nat) :=
  match l with
  | [] => []
  | a :: rest =>
    (a :: rest).take chunkSizeBytes :: chunksOf ((a :: rest).drop chunkSizeBytes)
termination_by l.length
decreasing_by
  simp only [List.length_drop, List.length_cons, chunkSizeBytes]
  omega

/-- part_000 `arrayBufferToBase64`: the argument lists handed to the
successive `String.fromCharCode.apply(null, chunk)` calls, one per
64 KiB chunk. -/
def fromCharCodeCalls (bytes : List Nat) : List (List Nat) := chunksOf bytes

/-- content.js fallback `String.fromCharCode(...new Uint8Array(buffer))`:
a single call receiving the whole buffer as its argument list. -/
def bulkFromCharCodeCalls (bytes : List Nat) : List (List Nat) := [bytes]

def base64Chars : List Char :=
  "ABCDEFGHIJKLMNOPQRSTUVWXYZabcdefghijklmnopqrstuvwxyz0123456789+/".toList

def b64Char (n : Nat) : Char := base64Chars.getD n '='

/-- `btoa` on a latin-1 string given by its char codes. -/
def btoa : List Nat → String
  | [] => ""
  | [a] =>
    let x := a % 256
    String.mk [b64Char (x / 4), b64Char (x % 4 * 16), '=', '=']
  | [a, b] =>
    let x := a % 256
    let y := b % 256
    String.mk [b64Char (x / 4), b64Char (x % 4 * 16 + y / 16), b64Char (y % 16 * 4), '=']
  | a :: b :: c :: rest =>
    let x := a % 256
    let y := b % 256
    let z := c % 256
    String.mk [b64Char (x / 4), b64Char (x % 4 * 16 + y / 16),
      b64Char (y % 16 * 4 + z / 64), b64Char (z % 64)] ++ btoa rest

/-- part_000 `arrayBufferToBase64`: builds the binary string chunk by
chunk (the concatenation of the per-call results) and base64-encodes it. -/
def arrayBufferToBase64 (bytes : List Nat) : String :=
  btoa (fromCharCodeCalls bytes).flatten

/-- content.js base64 fallback: one bulk conversion, then `btoa`. -/
def bulkBase64 (bytes : List Nat) : String :=
  btoa (bulkFromCharCodeCalls bytes).flatten

/-- A cached response as the capture loop observes it. -/
structure RawResponse where
  status : Nat
  statusText : String
  headers : List (String × String)
  /-- Parsed value of the content-length header; `none` models an absent
  or non-numeric header (JS computes `estimatedSize = 0` resp. `NaN`,
  both of which fail the `>` test exactly like `0`). -/
  contentLength : Option Nat
  /-- `some t` when `response.clone().text()` resolves with `t`. -/
  textBody : Option String
  /-- The raw bytes when `response.clone().arrayBuffer()` resolves
  (consulted only after a text failure). -/
  bufferBody : Option (List Nat)
  rtype : String
deriving DecidableEq, Repr

/-- One request key of a cache; `response = none` models
`cache.match(request)` resolving with no response. -/
structure RawRequest where
  url : String
  response : Option RawResponse
deriving DecidableEq, Repr

structure RawCache where
  name : String
  requests : List RawRequest
deriving DecidableEq, Repr

/-- The per-entry serialization decision: `some body` when the entry is
captured with that serialized body, `none` when it is skipped (over-cap
header estimate, over-cap text, over-cap buffer, or failed reads). -/
def captureBody (r : RawResponse) : Option String :=
  if r.contentLength.getD 0 > entryCap then none
  else
    match r.textBody with
    | some t => if t.length > entryCap then none else some t
    | none =>
      match r.bufferBody with
      | some buf =>
        if buf.length > entryCap then none
        else some (arrayBufferToBase64 buf)
      | none => none

def mkCacheEntry (req : RawRequest) (r : RawResponse) (body : String) : CacheEntry :=
  { url := req.url, status := r.status, statusText := r.statusText
    headers := r.headers, body := some body, rtype := r.rtype }

/-- The inner `for (const request of requests)` loop: threads the running
`cacheSize` and the pushed `entries`, breaking when
`totalSize + cacheSize >= maxBytes`. -/
def captureEntries (maxBytes totalSize : Nat) :
    List RawRequest → Nat → List CacheEntry → Nat × List CacheEntry
  | [], cacheSize, acc => (cacheSize, acc)
  | req :: rest, cacheSize, acc =>
    if totalSize + cacheSize ≥ maxBytes then (cacheSize, acc)
    else
      match req.response with
      | none => captureEntries maxBytes totalSize rest cacheSize acc
      | some r =>
        match captureBody r with
        | none => captureEntries maxBytes totalSize rest cacheSize acc
        | some body =>
          captureEntries maxBytes totalSize rest (cacheSize + body.length)
            (acc ++ [mkCacheEntry req r body])

/-- The per-cache run of the inner loop, starting from `cacheSize = 0`
and an empty `entries` array. -/
def cacheResult (maxBytes totalSize : Nat) (c : RawCache) : Nat × List CacheEntry :=
  captureEntries maxBytes totalSize c.requests 0 []

/-- The outer `for (const cacheName of cacheNames)` loop: breaks when
`totalSize >= maxBytes`, records a cache only when it has surviving
entries, and then adds its `cacheSize` to the running total. -/
def captureCaches (maxBytes : Nat) :
    List RawCache → Nat → List CacheSnap → List CacheSnap
  | [], _, acc => acc
  | c :: rest, totalSize, acc =>
    if totalSize ≥ maxBytes then acc
    else
      if (cacheResult maxBytes totalSize c).2.length > 0 then
        captureCaches maxBytes rest (totalSize + (cacheResult maxBytes totalSize c).1)
          (acc ++ [⟨c.name, (cacheResult maxBytes totalSize c).2,
            (cacheResult maxBytes totalSize c).1⟩])
      else
        captureCaches maxBytes rest totalSize acc

/-- part_000 `getCacheData(maxSizeMB)` over the abstract cache contents. -/
def getCacheData (maxSizeMB : Nat) (rawCaches : List RawCache) : List CacheSnap :=
  captureCaches (maxSizeMB * MB) rawCaches 0 []

def entryBodyLen (e : CacheEntry) : Nat := (e.body.getD "").length

def sumSizes (l : List CacheSnap) : Nat := (l.map CacheSnap.sizeBytes).sum

def allEntries (l : List CacheSnap) : List CacheEntry :=
  (l.map CacheSnap.entries).flatten

def maxEntryLen (l : List CacheSnap) : Nat :=
  ((allEntries l).map entryBodyLen).foldr max 0

def c8Buf : List Nat := List.replicate 65537 7

/-- C8 counterexample: the plain content-script revision's base64
fallback hands the entire byte buffer to a single
`String.fromCharCode(...)` call — here one call receives 65537 > 65536
arguments — contradicting the claim that no single encode call receives
the entire buffer regardless of its size. -/
theorem bulkFromCharCodeCalls_whole_buffer_cex :
    bulkFromCharCodeCalls c8Buf = [c8Buf] ∧ c8Buf.length = 65537 ∧
      ¬ c8Buf.length ≤ chunkSizeBytes := by
  have hlen : c8Buf.length = 65537 := by
    unfold c8Buf
    simp only [List.length_replicate]
  exact ⟨rfl, hlen, by rw [hlen]; unfold chunkSizeBytes; omega⟩

/-- Every chunk produced by the chunked loop is at most 64 KiB long and
the chunks concatenate back to the buffer. -/
theorem chunksOf_spec : ∀ (n : Nat) (bytes : List Nat), bytes.length ≤ n →
    (∀ call ∈ chunksOf bytes, call.length ≤ chunkSizeBytes) ∧
    (chunksOf bytes).flatten = bytes := by
  intro n
  induction n with
  | zero =>
    intro bytes hb
    have hnil : bytes = [] := List.length_eq_zero.mp (Nat.le_zero.mp hb)
    subst hnil
    exact ⟨by simp [chunksOf], by simp [chunksOf]⟩
  | succ n ih =>
    intro bytes hb
    match bytes with
    | [] => exact ⟨by simp [chunksOf], by simp [chunksOf]⟩
    | a :: rest =>
      have hdrop : ((a :: rest).drop chunkSizeBytes).length ≤ n := by
        simp only [List.length_drop, List.length_cons, chunkSizeBytes]
        simp only [List.length_cons] at hb
        omega
      rcases ih _ hdrop with ⟨ih1, ih2⟩
      constructor
      · intro call hcall
        rw [chunksOf] at hcall
        rcases List.mem_cons.mp hcall with hc | hc
        · subst hc
          simp only [List.length_take]
          exact Nat.min_le_left _ _
        · exact ih1 call hc
      · rw [chunksOf, List.flatten_cons, ih2]
        exact List.take_append_drop chunkSizeBytes (a :: rest)

/-- C8 (amended): the size-governed capture path's encoder processes the
buffer in fixed 64 KiB chunks — every `String.fromCharCode` call
receives at most 65536 bytes and the calls jointly cover exactly the
buffer — whereas the plain content-script revision's fallback passes the
entire buffer to one single call. -/
theorem arrayBufferToBase64_fixed_chunks (bytes : List Nat) :
    (∀ call ∈ fromCharCodeCalls bytes, call.length ≤ chunkSizeBytes) ∧
    (fromCharCodeCalls bytes).flatten = bytes ∧
    bulkFromCharCodeCalls bytes = [bytes] := by
  rcases chunksOf_spec bytes.length bytes (Nat.le_refl _) with ⟨h1, h2⟩
  exact ⟨h1, h2, rfl⟩

/-- Witness for the amended C8 theorem at a concrete buffer. -/
theorem arrayBufferToBase64_fixed_chunks_witness :
    fromCharCodeCalls [1, 2, 3] = [[1, 2, 3]] ∧
    ([1, 2, 3] : List Nat).length ≤ chunkSizeBytes ∧
    (fromCharCodeCalls [1, 2, 3]).flatten = [1, 2, 3] ∧
    bulkFromCharCodeCalls [1, 2, 3] = [[1, 2, 3]] := by
  have h := arrayBufferToBase64_fixed_chunks [1, 2, 3]
  have h1 : List.take chunkSizeBytes ([1, 2, 3] : List Nat) = [1, 2, 3] := by decide
  have h2 : List.drop chunkSizeBytes ([1, 2, 3] : List Nat) = [] := by decide
  have hcalls : fromCharCodeCalls [1, 2, 3] = [[1, 2, 3]] := by
    unfold fromCharCodeCalls
    simp only [chunksOf, h1, h2]
  exact ⟨hcalls, h.1 [1, 2, 3] (by rw [hcalls]; exact List.mem_singleton.mpr rfl),
    h.2.1, h.2.2⟩

/-- A 4 MiB-scale text body: `n` copies of one character. -/
def bigA (n : Nat) : String := String.mk (List.replicate n 'a')

theorem bigA_length (n : Nat) : (bigA n).length = n :=
  List.length_replicate n 'a'

/-- A response whose body decodes as an `n`-character text with no
content-length header. -/
def mkTextResp (n : Nat) : RawResponse :=
  { status := 200
    statusText := "OK"
    headers := []
    contentLength := none
    textBody := some (bigA n)
    bufferBody := none
    rtype := "basic" }

/-- A request cached under `u` whose response is `mkTextResp n`. -/
def mkTextReq (u : String) (n : Nat) : RawRequest :=
  { url := u, response := some (mkTextResp n) }

/-- The entry `getCacheData` records for a captured `mkTextReq u n`. -/
def textEntry (u : String) (n : Nat) : CacheEntry :=
  mkCacheEntry (mkTextReq u n) (mkTextResp n) (bigA n)

theorem captureBody_mkTextResp (n : Nat) (h : n ≤ entryCap) :
    captureBody (mkTextResp n) = some (bigA n) := by
  unfold captureBody mkTextResp
  simp [bigA_length, Nat.not_lt.mpr h]

theorem captureBody_mkTextResp_over (n : Nat) (h : n > entryCap) :
    captureBody (mkTextResp n) = none := by
  unfold captureBody mkTextResp
  simp [bigA_length, h]

theorem captureEntries_nil (maxB tot cs : Nat) (acc : List CacheEntry) :
    captureEntries maxB tot [] cs acc = (cs, acc) := by
  rw [captureEntries]

theorem captureEntries_break {maxB tot cs : Nat} (req : RawRequest)
    (rest : List RawRequest) (acc : List CacheEntry) (h : tot + cs ≥ maxB) :
    captureEntries maxB tot (req :: rest) cs acc = (cs, acc) := by
  rw [captureEntries, if_pos h]

theorem captureEntries_take {maxB tot cs : Nat} (u : String) (n : Nat)
    (rest : List RawRequest) (acc : List CacheEntry)
    (h1 : tot + cs < maxB) (h2 : n ≤ entryCap) :
    captureEntries maxB tot (mkTextReq u n :: rest) cs acc =
      captureEntries maxB tot rest (cs + n) (acc ++ [textEntry u n]) := by
  rw [captureEntries, if_neg (by omega)]
  simp only [mkTextReq]
  rw [captureBody_mkTextResp n h2]
  simp only [bigA_length, textEntry, mkCacheEntry, mkTextReq]

theorem captureEntries_skip {maxB tot cs : Nat} (u : String) (n : Nat)
    (rest : List RawRequest) (acc : List CacheEntry)
    (h1 : tot + cs < maxB) (h2 : n > entryCap) :
    captureEntries maxB tot (mkTextReq u n :: rest) cs acc =
      captureEntries maxB tot rest cs acc := by
  rw [captureEntries, if_neg (by omega)]
  simp only [mkTextReq]
  rw [captureBody_mkTextResp_over n h2]

theorem captureCaches_nil (maxB tot : Nat) (acc : List CacheSnap) :
    captureCaches maxB [] tot acc = acc := by
  rw [captureCaches]

theorem captureCaches_break {maxB tot : Nat} (c : RawCache) (rest : List RawCache)
    (acc : List CacheSnap) (h : tot ≥ maxB) :
    captureCaches maxB (c :: rest) tot acc = acc := by
  rw [captureCaches, if_pos h]

theorem captureCaches_cons {maxB tot : Nat} {c : RawCache} {rest : List RawCache}
    {acc : List CacheSnap} {cs : Nat} {es : List CacheEntry}
    (h : tot < maxB) (hr : cacheResult maxB tot c = (cs, es)) (hne : es.length > 0) :
    captureCaches maxB (c :: rest) tot acc =
      captureCaches maxB rest (tot + cs) (acc ++ [⟨c.name, es, cs⟩]) := by
  rw [captureCaches, if_neg (by omega), hr, if_pos (show (cs, es).2.length > 0 from hne)]

theorem mem_captureEntries_acc (maxBytes totalSize : Nat) :
    ∀ (reqs : List RawRequest) (cs : Nat) (acc : List CacheEntry) (e : CacheEntry),
      e ∈ acc → e ∈ (captureEntries maxBytes totalSize reqs cs acc).2 := by
  intro reqs
  induction reqs with
  | nil => intro cs acc e he; rw [captureEntries]; exact he
  | cons req rest ih =>
    intro cs acc e he
    rw [captureEntries]
    split
    · exact he
    · split
      · exact ih cs acc e he
      · split
        · exact ih cs acc e he
        · exact ih _ _ e (List.mem_append_left _ he)

/-- Inner-loop overshoot bound: the loop either adds nothing, or ends
with `totalSize + cacheSize` within one captured entry's body length of
the run ceiling (every entry is only added under the strict
`totalSize + cacheSize < maxBytes` guard). -/
theorem captureEntries_overshoot (maxBytes totalSize : Nat) :
    ∀ (reqs : List RawRequest) (cs : Nat) (acc : List CacheEntry),
      ((captureEntries maxBytes totalSize reqs cs acc).1 = cs ∧
        (captureEntries maxBytes totalSize reqs cs acc).2 = acc) ∨
      ∃ e ∈ (captureEntries maxBytes totalSize reqs cs acc).2,
        totalSize + (captureEntries maxBytes totalSize reqs cs acc).1 ≤
          maxBytes + entryBodyLen e := by
  intro reqs
  induction reqs with
  | nil => intro cs acc; rw [captureEntries]; exact Or.inl ⟨rfl, rfl⟩
  | cons req rest ih =>
    intro cs acc
    rw [captureEntries]
    split
    · exact Or.inl ⟨rfl, rfl⟩
    · rename_i hlt
      split
      · exact ih cs acc
      · rename_i r hr
        split
        · exact ih cs acc
        · rename_i b hb
          rcases ih (cs + b.length) (acc ++ [mkCacheEntry req r b]) with ⟨h1, h2⟩ | h
          · refine Or.inr ⟨mkCacheEntry req r b, ?_, ?_⟩
            · rw [h2]
              exact List.mem_append_right _ (List.mem_singleton.mpr rfl)
            · rw [h1]
              have hblen : entryBodyLen (mkCacheEntry req r b) = b.length := by
                simp [entryBodyLen, mkCacheEntry]
              rw [hblen]
              omega
          · exact Or.inr h

theorem mem_captureCaches_acc (maxBytes : Nat) :
    ∀ (csl : List RawCache) (tot : Nat) (acc : List CacheSnap) (s : CacheSnap),
      s ∈ acc → s ∈ captureCaches maxBytes csl tot acc := by
  intro csl
  induction csl with
  | nil => intro tot acc s hs; rw [captureCaches]; exact hs
  | cons c rest ih =>
    intro tot acc s hs
    rw [captureCaches]
    split
    · exact hs
    · split
      · exact ih _ _ s (List.mem_append_left _ hs)
      · exact ih _ _ s hs

theorem mem_allEntries (l : List CacheSnap) (s : CacheSnap) (e : CacheEntry)
    (hs : s ∈ l) (he : e ∈ s.entries) : e ∈ allEntries l := by
  unfold allEntries
  exact List.mem_flatten.mpr ⟨s.entries, List.mem_map.mpr ⟨s, hs, rfl⟩, he⟩

theorem le_foldr_max (xs : List Nat) (a : Nat) (ha : a ∈ xs) :
    a ≤ xs.foldr max 0 := by
  induction xs with
  | nil => cases ha
  | cons x xs ih =>
    rcases List.mem_cons.mp ha with h | h
    · subst h; exact le_max_left _ _
    · exact le_trans (ih h) (le_max_right _ _)

theorem sumSizes_append_single (acc : List CacheSnap) (s : CacheSnap) :
    sumSizes (acc ++ [s]) = sumSizes acc + s.sizeBytes := by
  simp [sumSizes]

/-- Outer-loop invariant: starting from an accumulator whose recorded
sizes sum to `tot`, the final recorded total either never grew or sits
within one captured entry's body length of the ceiling. -/
theorem captureCaches_total_bound (maxBytes : Nat) :
    ∀ (csl : List RawCache) (tot : Nat) (acc : List CacheSnap),
      sumSizes acc = tot →
      sumSizes (captureCaches maxBytes csl tot acc) = tot ∨
      ∃ e ∈ allEntries (captureCaches maxBytes csl tot acc),
        sumSizes (captureCaches maxBytes csl tot acc) ≤ maxBytes + entryBodyLen e := by
  intro csl
  induction csl with
  | nil => intro tot acc hacc; rw [captureCaches]; exact Or.inl hacc
  | cons c rest ih =>
    intro tot acc hacc
    rw [captureCaches]
    split
    · exact Or.inl hacc
    · split
      · rename_i hne
        have hacc' :
            sumSizes (acc ++ [⟨c.name, (cacheResult maxBytes tot c).2,
              (cacheResult maxBytes tot c).1⟩]) = tot + (cacheResult maxBytes tot c).1 := by
          rw [sumSizes_append_single, hacc]
        rcases ih (tot + (cacheResult maxBytes tot c).1) _ hacc' with h | h
        · rcases captureEntries_overshoot maxBytes tot c.requests 0 [] with ⟨h1, h2⟩ | hov
          · rw [cacheResult] at hne
            rw [h2] at hne
            simp at hne
          · rcases hov with ⟨e, he, hbound⟩
            refine Or.inr ⟨e, ?_, ?_⟩
            · refine mem_allEntries _ ⟨c.name, (cacheResult maxBytes tot c).2,
                (cacheResult maxBytes tot c).1⟩ e ?_ ?_
              · exact mem_captureCaches_acc maxBytes rest _ _ _
                  (List.mem_append_right _ (List.mem_singleton.mpr rfl))
              · rw [cacheResult]; exact he
            · rw [h]
              rw [cacheResult]
              exact hbound
        · exact Or.inr h
      · exact ih tot acc hacc

def c4Cache (nm : String) : RawCache :=
  { name := nm
    requests := [mkTextReq (nm ++ "/e1") MB, mkTextReq (nm ++ "/e2") MB,
      mkTextReq (nm ++ "/e3") MB, mkTextReq (nm ++ "/e4") MB] }

def c4Entries (nm : String) : List CacheEntry :=
  [textEntry (nm ++ "/e1") MB, textEntry (nm ++ "/e2") MB,
    textEntry (nm ++ "/e3") MB, textEntry (nm ++ "/e4") MB]

theorem mb_le_entryCap : MB ≤ entryCap := by
  simp only [entryCap, MAX_SINGLE_ENTRY_MB]
  omega

/-- When the running total leaves at least 4 MiB of headroom after three
entries, a `c4Cache` is captured fully. -/
theorem cacheResult_c4Cache_full (maxB tot : Nat) (nm : String)
    (h : tot + 3 * MB < maxB) :
    cacheResult maxB tot (c4Cache nm) = (4 * MB, c4Entries nm) := by
  unfold cacheResult c4Cache
  rw [captureEntries_take _ _ _ _ (by omega) mb_le_entryCap,
    captureEntries_take _ _ _ _ (by omega) mb_le_entryCap,
    captureEntries_take _ _ _ _ (by omega) mb_le_entryCap,
    captureEntries_take _ _ _ _ (by omega) mb_le_entryCap,
    captureEntries_nil]
  refine congrArg₂ Prod.mk (by ring) ?_
  simp [c4Entries]

/-- When only the first two entries fit under the ceiling, a `c4Cache`
is truncated to those two entries. -/
theorem cacheResult_c4Cache_trunc (maxB tot : Nat) (nm : String)
    (h1 : tot + MB < maxB) (h2 : tot + 2 * MB ≥ maxB) :
    cacheResult maxB tot (c4Cache nm) =
      (2 * MB, [textEntry (nm ++ "/e1") MB, textEntry (nm ++ "/e2") MB]) := by
  unfold cacheResult c4Cache
  rw [captureEntries_take _ _ _ _ (by omega) mb_le_entryCap,
    captureEntries_take _ _ _ _ (by omega) mb_le_entryCap,
    captureEntries_break _ _ _ (by omega)]
  refine congrArg₂ Prod.mk (by ring) (by simp)

/-- Three caches of four 1 MiB entries each: 4 MiB of encoded body per
cache, as in the claim's 10 MiB-ceiling example. -/
def c4CexRun : List RawCache := [c4Cache "a", c4Cache "b", c4Cache "c"]

/-- Four caches of 4 MiB each, exercising both the mid-cache truncation
and the skipping of a whole subsequent cache under a 10 MiB ceiling. -/
def c4Run : List RawCache := [c4Cache "c1", c4Cache "c2", c4Cache "c3", c4Cache "c4"]

/-- C4 counterexample: with ceiling 10 MiB and three caches of 4 MiB
each (four 1 MiB entries per cache), the first two caches are captured
fully but the third is captured with two entries — present and
non-empty — not "empty or absent" as the claim requires. -/
theorem getCacheData_third_cache_truncated_cex :
    ((getCacheData 10 c4CexRun).map (fun s => (s.name, s.entries.length))) =
      [("a", 4), ("b", 4), ("c", 2)] ∧ (2 : Nat) ≠ 0 := by
  refine ⟨?_, by omega⟩
  unfold getCacheData c4CexRun
  rw [captureCaches_cons (by simp only [MB]; omega)
        (cacheResult_c4Cache_full _ _ "a" (by simp only [MB]; omega))
        (by simp [c4Entries]),
      captureCaches_cons (by simp only [MB]; omega)
        (cacheResult_c4Cache_full _ _ "b" (by simp only [MB]; omega))
        (by simp [c4Entries]),
      captureCaches_cons (by simp only [MB]; omega)
        (cacheResult_c4Cache_trunc _ _ "c" (by simp only [MB]; omega)
          (by simp only [MB]; omega))
        (by simp),
      captureCaches_nil]
  simp [c4Cache, c4Entries]

/-- C4 (amended): the run ceiling governs capture with at most one
entry's overshoot: over any input the total recorded bytes are at most
`ceiling + (largest captured entry's body length)`; and in the
10 MiB-ceiling run over 4 MiB caches the first two caches are captured
fully, the third is truncated mid-cache to the entries that fit (two of
four), every later cache is skipped entirely, and the recorded total is
exactly 10 MiB. -/
theorem getCacheData_size_governed :
    (∀ (maxSizeMB : Nat) (rawCaches : List RawCache),
      sumSizes (getCacheData maxSizeMB rawCaches) ≤
        maxSizeMB * MB + maxEntryLen (getCacheData maxSizeMB rawCaches)) ∧
    ((getCacheData 10 c4Run).map (fun s => (s.name, s.entries.length)) =
      [("c1", 4), ("c2", 4), ("c3", 2)]) ∧
    sumSizes (getCacheData 10 c4Run) = 10 * MB := by
  refine ⟨?_, ?_, ?_⟩
  · intro maxSizeMB rawCaches
    rcases captureCaches_total_bound (maxSizeMB * MB) rawCaches 0 [] rfl with h | h
    · unfold getCacheData
      rw [h]
      exact Nat.zero_le _
    · rcases h with ⟨e, he, hbound⟩
      unfold getCacheData
      refine le_trans hbound (Nat.add_le_add_left ?_ _)
      unfold maxEntryLen
      exact le_foldr_max _ _ (List.mem_map.mpr ⟨e, he, rfl⟩)
  · unfold getCacheData c4Run
    rw [captureCaches_cons (by simp only [MB]; omega)
          (cacheResult_c4Cache_full _ _ "c1" (by simp only [MB]; omega))
          (by simp [c4Entries]),
        captureCaches_cons (by simp only [MB]; omega)
          (cacheResult_c4Cache_full _ _ "c2" (by simp only [MB]; omega))
          (by simp [c4Entries]),
        captureCaches_cons (by simp only [MB]; omega)
          (cacheResult_c4Cache_trunc _ _ "c3" (by simp only [MB]; omega)
            (by simp only [MB]; omega))
          (by simp),
        captureCaches_break _ _ _ (by simp only [MB]; omega)]
    simp [c4Cache, c4Entries]
  · unfold getCacheData c4Run
    rw [captureCaches_cons (by simp only [MB]; omega)
          (cacheResult_c4Cache_full _ _ "c1" (by simp only [MB]; omega))
          (by simp [c4Entries]),
        captureCaches_cons (by simp only [MB]; omega)
          (cacheResult_c4Cache_full _ _ "c2" (by simp only [MB]; omega))
          (by simp [c4Entries]),
        captureCaches_cons (by simp only [MB]; omega)
          (cacheResult_c4Cache_trunc _ _ "c3" (by simp only [MB]; omega)
            (by simp only [MB]; omega))
          (by simp),
        captureCaches_break _ _ _ (by simp only [MB]; omega)]
    simp [sumSizes, MB]

/-- Every entry of the inner loop's result either was already in the
accumulator or originates from one of the walked requests via a
successful `captureBody`. -/
theorem captureEntries_provenance (maxBytes totalSize : Nat) :
    ∀ (reqs : List RawRequest) (cs : Nat) (acc : List CacheEntry),
      ∀ e ∈ (captureEntries maxBytes totalSize reqs cs acc).2,
        e ∈ acc ∨ ∃ req ∈ reqs, ∃ r, req.response = some r ∧
          ∃ b, captureBody r = some b ∧ e = mkCacheEntry req r b := by
  intro reqs
  induction reqs with
  | nil => intro cs acc e he; rw [captureEntries] at he; exact Or.inl he
  | cons req rest ih =>
    intro cs acc e he
    rw [captureEntries] at he
    split at he
    · exact Or.inl he
    · split at he
      · rcases ih cs acc e he with h | ⟨req', hreq', hrest⟩
        · exact Or.inl h
        · exact Or.inr ⟨req', List.mem_cons_of_mem _ hreq', hrest⟩
      · rename_i r hr
        split at he
        · rcases ih cs acc e he with h | ⟨req', hreq', hrest⟩
          · exact Or.inl h
          · exact Or.inr ⟨req', List.mem_cons_of_mem _ hreq', hrest⟩
        · rename_i b hb
          rcases ih _ _ e he with h | ⟨req', hreq', hrest⟩
          · rcases List.mem_append.mp h with h' | h'
            · exact Or.inl h'
            · refine Or.inr ⟨req, List.mem_cons_self _ _, r, hr, b, hb, ?_⟩
              simpa using h'
          · exact Or.inr ⟨req', List.mem_cons_of_mem _ hreq', hrest⟩

/-- Every snapshot of the outer loop's result either was already in the
accumulator or comes from one of the walked caches, with each of its
entries justified by a successful `captureBody` on that cache's
requests. -/
theorem captureCaches_provenance (maxBytes : Nat) :
    ∀ (csl : List RawCache) (tot : Nat) (acc : List CacheSnap),
      ∀ s ∈ captureCaches maxBytes csl tot acc,
        s ∈ acc ∨ ∃ c ∈ csl, s.name = c.name ∧
          ∀ e ∈ s.entries, ∃ req ∈ c.requests, ∃ r, req.response = some r ∧
            ∃ b, captureBody r = some b ∧ e = mkCacheEntry req r b := by
  intro csl
  induction csl with
  | nil => intro tot acc s hs; rw [captureCaches] at hs; exact Or.inl hs
  | cons c rest ih =>
    intro tot acc s hs
    rw [captureCaches] at hs
    split at hs
    · exact Or.inl hs
    · split at hs
      · rcases ih _ _ s hs with h | ⟨c', hc', hrest⟩
        · rcases List.mem_append.mp h with h' | h'
          · exact Or.inl h'
          · have hseq : s = ⟨c.name, (cacheResult maxBytes tot c).2,
                (cacheResult maxBytes tot c).1⟩ := by simpa using h'
            subst hseq
            refine Or.inr ⟨c, List.mem_cons_self _ _, rfl, ?_⟩
            intro e he
            have hprov := captureEntries_provenance maxBytes tot c.requests 0 [] e
              (by rw [cacheResult] at he; exact he)
            rcases hprov with h'' | h''
            · exact absurd h'' (List.not_mem_nil e)
            · exact h''
        · exact Or.inr ⟨c', List.mem_cons_of_mem _ hc', hrest⟩
      · rcases ih tot acc s hs with h | ⟨c', hc', hrest⟩
        · exact Or.inl h
        · exact Or.inr ⟨c', List.mem_cons_of_mem _ hc', hrest⟩

def c5Big : RawRequest := mkTextReq "https://s.example/big" (6 * MB)

def c5Small : RawRequest := mkTextReq "https://s.example/small" MB

def c5Cache : RawCache := { name := "assets", requests := [c5Big, c5Small] }

/-- One cache holding a 6 MiB entry (over the 5 MiB per-entry cap) and a
1 MiB sibling, captured under the default 50 MiB run ceiling. -/
def c5Run : List RawCache := [c5Cache]

/-- C5: whenever the content-length pre-filter, the decoded text length
or the raw buffer length exceeds the per-entry cap, `captureBody` skips
the entry; every recorded entry of any capture run originates from a
request whose response passed `captureBody` (so an over-cap entry never
appears, even partially); and in the concrete run the 6 MiB entry is
absent while its under-cap sibling in the same cache is captured. -/
theorem getCacheData_per_entry_cap :
    (∀ r : RawResponse, r.contentLength.getD 0 > entryCap → captureBody r = none) ∧
    (∀ (r : RawResponse) (t : String), r.textBody = some t → t.length > entryCap →
      captureBody r = none) ∧
    (∀ (r : RawResponse) (buf : List Nat), r.textBody = none → r.bufferBody = some buf →
      buf.length > entryCap → captureBody r = none) ∧
    (∀ (maxSizeMB : Nat) (rawCaches : List RawCache),
      ∀ s ∈ getCacheData maxSizeMB rawCaches, ∃ c ∈ rawCaches, s.name = c.name ∧
        ∀ e ∈ s.entries, ∃ req ∈ c.requests, ∃ r, req.response = some r ∧
          ∃ b, captureBody r = some b ∧ e = mkCacheEntry req r b) ∧
    ((getCacheData 50 c5Run).map (fun s => (s.name, s.entries.map CacheEntry.url)) =
      [("assets", ["https://s.example/small"])]) := by
  refine ⟨?_, ?_, ?_, ?_, ?_⟩
  · intro r h
    unfold captureBody
    rw [if_pos h]
  · intro r t htext hlen
    unfold captureBody
    split
    · rfl
    · simp [htext, hlen]
  · intro r buf htext hbuf hlen
    unfold captureBody
    split
    · rfl
    · simp [htext, hbuf, hlen]
  · intro maxSizeMB rawCaches s hs
    have hprov := captureCaches_provenance (maxSizeMB * MB) rawCaches 0 [] s
      (by rw [getCacheData] at hs; exact hs)
    rcases hprov with h | h
    · exact absurd h (List.not_mem_nil s)
    · exact h
  · have hres : cacheResult (50 * MB) 0 c5Cache =
        (MB, [textEntry "https://s.example/small" MB]) := by
      unfold cacheResult c5Cache c5Big c5Small
      rw [captureEntries_skip _ _ _ _ (by simp only [MB]; omega)
            (by simp only [entryCap, MAX_SINGLE_ENTRY_MB, MB]; omega),
          captureEntries_take _ _ _ _ (by simp only [MB]; omega) mb_le_entryCap,
          captureEntries_nil]
      refine congrArg₂ Prod.mk (by omega) (by simp)
    unfold getCacheData c5Run
    rw [captureCaches_cons (by simp only [MB]; omega) hres (by simp),
        captureCaches_nil]
    simp [c5Cache, textEntry, mkCacheEntry, mkTextReq]

def c5HeaderResp : RawResponse :=
  { status := 200
    statusText := "OK"
    headers := [("content-length", "6291456")]
    contentLength := some (6 * MB)
    textBody := none
    bufferBody := none
    rtype := "basic" }

def c5BufResp : RawResponse :=
  { status := 200
    statusText := "OK"
    headers := []
    contentLength := none
    textBody := none
    bufferBody := some (List.replicate (entryCap + 1) 0)
    rtype := "basic" }

/-- Witness for the C5 theorem: each cap check discharged at a concrete
over-cap response. -/
theorem getCacheData_per_entry_cap_witness :
    captureBody c5HeaderResp = none ∧ captureBody (mkTextResp (6 * MB)) = none ∧
    captureBody c5BufResp = none := by
  have h := getCacheData_per_entry_cap
  refine ⟨h.1 c5HeaderResp ?_, ?_, h.2.2.1 c5BufResp (List.replicate (entryCap + 1) 0)
    rfl rfl ?_⟩
  · show (c5HeaderResp.contentLength).getD 0 > entryCap
    simp only [c5HeaderResp, Option.getD_some, entryCap, MAX_SINGLE_ENTRY_MB, MB]
    omega
  · refine h.2.1 (mkTextResp (6 * MB)) (bigA (6 * MB)) rfl ?_
    rw [bigA_length]
    simp only [entryCap, MAX_SINGLE_ENTRY_MB, MB]
    omega
  · rw [List.length_replicate]
    omega

/-! ### Backup import classification (restore.js processFile, popup.js)

Cookie records are translated field-by-field on import but never
inspected by the classification logic, so the model carries them
opaquely.  `processFileClassify` embeds the format detection of the
dedicated restore page's `processFile`: version 2 or 3 → full import;
bare array → v1 cookies-only; unversioned object with a `cookies` or
`webStorage` field → treated like v2; anything else → the terminal
`Unrecognized backup file format` error, with nothing persisted.
`popupImport` embeds the legacy popup `file_input` change handler, which
recognizes only `version === 2` and bare arrays and otherwise persists
empty cookie/webStorage sets without raising any error (its result type
has no error case, mirroring the handler's lack of one).
-/

abbrev Cookie := JsVal

/-- A parsed backup payload: a bare JSON array or a JSON object with the
fields the import paths look at (a missing field is `none`; a present
field — even an empty list — is truthy in the JS checks). -/
inductive ImportData where
  | arr (cookies : List Cookie)
  | obj (version : Option Nat) (cookies : Option (List Cookie)) (webStorage : Option Repo)
deriving DecidableEq, Repr

inductive ImportResult where
  /-- The payload is accepted; these cookies and webStorage get persisted. -/
  | imported (cookies : List Cookie) (webStorage : Repo)
  /-- `throw new Error('Unrecognized backup file format')`: caught, shown
  to the user, and nothing is written to storage. -/
  | formatError
deriving DecidableEq, Repr

def processFileClassify : ImportData → ImportResult
  | .arr cs => .imported cs []
  | .obj v cks ws =>
    if v = some 2 ∨ v = some 3 then .imported (cks.getD []) (ws.getD [])
    else if cks.isSome || ws.isSome then .imported (cks.getD []) (ws.getD [])
    else .formatError

def popupImport : ImportData → List Cookie × Repo
  | .arr cs => (cs, [])
  | .obj v cks ws => if v = some 2 then (cks.getD [], ws.getD []) else ([], [])

def c6Ws : Repo :=
  [("https://i.example",
    { localStorage := some [("t", "1")], indexedDB := none, cacheStorage := none })]

/-- C6 counterexample: the popup import path, fed a version-3 backup
carrying cookies and webStorage, persists empty data — version 3 is not
accepted as an alias of 2 there, and no malformed-input error is raised
(the handler has no error path at all), while the restore-page path
imports the same payload fully. -/
theorem popupImport_drops_v3_cex :
    popupImport (.obj (some 3) (some ["ck"]) (some c6Ws)) = ([], []) ∧
    processFileClassify (.obj (some 3) (some ["ck"]) (some c6Ws)) =
      .imported ["ck"] c6Ws ∧
    popupImport (.obj none none none) = ([], []) := by
  refine ⟨by decide, by decide, by decide⟩

/-- C6 (amended): the dedicated restore-page import path classifies a
bare array as v1 cookies-only, accepts version 3 as an alias of version
2, and raises the terminal malformed-input error (persisting nothing)
for an object with no recognized version and no `cookies`/`webStorage`
field; the legacy popup path accepts only `version === 2` exactly and on
any other object persists empty data without raising an error. -/
theorem import_format_detection :
    (∀ cs : List Cookie, processFileClassify (.arr cs) = .imported cs []) ∧
    (∀ (v : Option Nat) cks ws, (v = some 2 ∨ v = some 3) →
      processFileClassify (.obj v cks ws) = .imported (cks.getD []) (ws.getD [])) ∧
    (∀ v : Option Nat, ¬(v = some 2 ∨ v = some 3) →
      processFileClassify (.obj v none none) = .formatError) ∧
    (∀ (v : Option Nat) cks ws, v ≠ some 2 → popupImport (.obj v cks ws) = ([], [])) := by
  refine ⟨fun cs => rfl, ?_, ?_, ?_⟩
  · intro v cks ws h
    simp only [processFileClassify]
    rw [if_pos h]
  · intro v h
    simp only [processFileClassify]
    rw [if_neg h, if_neg (by simp)]
  · intro v cks ws h
    simp only [popupImport]
    rw [if_neg h]

/-- Witness for the amended C6 theorem at concrete payloads. -/
theorem import_format_detection_witness :
    processFileClassify (.arr ["c1"]) = .imported ["c1"] [] ∧
    processFileClassify (.obj (some 3) (some ["c2"]) none) = .imported ["c2"] [] ∧
    processFileClassify (.obj (some 1) none none) = .formatError ∧
    popupImport (.obj (some 3) (some ["c2"]) none) = ([], []) := by
  have h := import_format_detection
  exact ⟨h.1 ["c1"], h.2.1 (some 3) (some ["c2"]) none (Or.inr rfl),
    h.2.2.1 (some 1) (by simp), h.2.2.2 (some 3) (some ["c2"]) none (by simp)⟩

/-- C10: the restore-page path accepts an object that is not an array
and carries no recognized version but has a `cookies` or `webStorage`
field, importing those fields as a v2 backup would be, instead of
raising the malformed-input error. -/
theorem processFile_unversioned_fallback (v : Option Nat) (cks : Option (List Cookie))
    (ws : Option Repo) (h1 : ¬(v = some 2 ∨ v = some 3))
    (h2 : cks.isSome = true ∨ ws.isSome = true) :
    processFileClassify (.obj v cks ws) = .imported (cks.getD []) (ws.getD []) := by
  simp only [processFileClassify]
  rw [if_neg h1, if_pos (by rcases h2 with h | h <;> simp [h])]

def c10Ws : Repo :=
  [("https://u.example",
    { localStorage := none, indexedDB := some [c1Db], cacheStorage := none })]

/-- Witness for C10 at a version-1-marked object carrying webStorage. -/
theorem processFile_unversioned_fallback_witness :
    ¬((some 1 : Option Nat) = some 2 ∨ (some 1 : Option Nat) = some 3) ∧
    ((none : Option (List Cookie)).isSome = true ∨ (some c10Ws).isSome = true) ∧
    processFileClassify (.obj (some 1) none (some c10Ws)) = .imported [] c10Ws :=
  ⟨by decide, by decide,
    processFile_unversioned_fallback (some 1) none (some c10Ws) (by decide) (by decide)⟩

/-! ### The in-page restore: setLocalStorage and the setStorageData handler

`setLocalStorage` embeds content.js `setLocalStorage`: it walks
`Object.entries(data)` calling `localStorage.setItem(key, value)`, which
overwrites an existing key in place (keeping its enumeration position)
and appends a new key — exactly `assocSet`.  `handleSetStorageData`
embeds the `setStorageData` message handler over an explicit page-storage
state.
-/

abbrev LSMap := List (String × String)

def setLocalStorage (data : LSMap) (store : LSMap) : LSMap :=
  data.foldl (fun st p => assocSet st p.1 p.2) store

/-- `localStorage.getItem k` on the modeled store. -/
def lsGet (store : LSMap) (k : String) : Option String := assocGet store k

/-- The value of the last `setItem` for key `k` in the walked entry
list, if any. -/
def lastAssign : LSMap → String → Option String
  | [], _ => none
  | (k', v) :: rest, k =>
    match lastAssign rest k with
    | some w => some w
    | none => if k' == k then some v else none

theorem lsGet_setLocalStorage :
    ∀ (data store : LSMap) (k : String),
      lsGet (setLocalStorage data store) k =
        match lastAssign data k with
        | some v => some v
        | none => lsGet store k := by
  intro data
  induction data with
  | nil => intro store k; rfl
  | cons p rest ih =>
    intro store k
    have hstep : setLocalStorage (p :: rest) store =
        setLocalStorage rest (assocSet store p.1 p.2) := rfl
    rw [hstep, ih]
    cases hlast : lastAssign rest k with
    | some w => simp [lastAssign, hlast]
    | none =>
      by_cases hk : p.1 = k
      · simp only [lastAssign, hlast, hk]
        simp [lsGet, assocGet_assocSet_same]
      · have hk' : (p.1 == k) = false := by simp [hk]
        simp only [lastAssign, hlast, hk']
        simp [lsGet, assocGet_assocSet_ne store p.1 k p.2 (Ne.symm hk)]

/-! ### IndexedDB restore (content.js setIndexedDBData / restoreDatabase)

`restoreDatabase` sequentializes the callback protocol: the
`deleteDatabase(name)` success callback opens `(name, version)`, the
`onupgradeneeded` phase creates every object store with its recorded
keyPath/autoIncrement and every index with its recorded
unique/multiEntry flags, and only then the `onsuccess` phase populates
each store with `data.length > 0` inside a per-store try/catch.  The
`failPopulate db store` oracle models `populateObjectStore`'s
transaction erroring for that store: the transaction rolls back, the
catch logs, and the loop continues, so only that store's contents are
missing.  Delete/open rejections (the per-database try/catch in
`setIndexedDBData`) are outside this model: it covers the paths the
claims quantify over, where each database's promise resolves.
-/

/-- An object store's schema as (re)created during the upgrade phase. -/
structure StoreDef where
  name : String
  keyPath : Option KeyPath
  autoIncrement : Bool
  indexes : List IndexSnap
deriving DecidableEq, Repr

/-- A live IndexedDB database of the page: its version, the store
schemas created at upgrade time, and the populated contents per store. -/
structure Database where
  version : Nat
  stores : List StoreDef
  contents : List (String × List RecordPair)
deriving DecidableEq, Repr

def storeDefOfSnap (s : StoreSnap) : StoreDef :=
  { name := s.name, keyPath := s.keyPath, autoIncrement := s.autoIncrement
    indexes := s.indexes }

/-- The database as recreated from a snapshot: schema from the upgrade
phase (independent of population outcomes), contents from the
population loop, skipping empty stores and stores whose population
transaction failed. -/
def restoredDb (failPopulate : String → String → Bool) (dbData : DBSnap) : Database :=
  { version := dbData.version
    stores := dbData.objectStores.map storeDefOfSnap
    contents := dbData.objectStores.filterMap (fun s =>
      if s.data.length > 0 && !failPopulate dbData.name s.name then
        some (s.name, s.data)
      else none) }

def restoreDatabase (failPopulate : String → String → Bool)
    (env : List (String × Database)) (dbData : DBSnap) : List (String × Database) :=
  env.filter (fun p => p.1 != dbData.name) ++ [(dbData.name, restoredDb failPopulate dbData)]

def setIndexedDBData (failPopulate : String → String → Bool)
    (env : List (String × Database)) (dbs : List DBSnap) : List (String × Database) :=
  dbs.foldl (restoreDatabase failPopulate) env

theorem find?_filter_of_imp {α : Type} (l : List α) (p q : α → Bool)
    (h : ∀ x, p x = true → q x = true) :
    List.find? p (l.filter q) = List.find? p l := by
  induction l with
  | nil => rfl
  | cons a l ih =>
    cases hq : q a with
    | true =>
      cases hp : p a with
      | true => simp [List.filter_cons, hq, List.find?, hp]
      | false => simp [List.filter_cons, hq, List.find?, hp, ih]
    | false =>
      have hp : p a = false := by
        cases hpa : p a with
        | true => exact absurd (h a hpa) (by simp [hq])
        | false => rfl
      simp [List.filter_cons, hq, List.find?, hp, ih]

/-- C7: restoring a DatabaseSnapshot first removes any existing database
of the same name and installs a fresh one opened at the exact recorded
version; the schema (key paths, autoIncrement, index flags) is rebuilt
from the snapshot in the upgrade phase and is unaffected by population
failures; other databases are untouched; a store whose population
succeeds keeps its records even when a sibling store's population
failed; and in a multi-database restore each database is recreated
regardless of population failures elsewhere. -/
theorem restoreDatabase_spec (failPopulate : String → String → Bool)
    (env : List (String × Database)) (dbData : DBSnap) :
    assocGet (restoreDatabase failPopulate env dbData) dbData.name =
      some (restoredDb failPopulate dbData) ∧
    (restoredDb failPopulate dbData).version = dbData.version ∧
    (restoredDb failPopulate dbData).stores = dbData.objectStores.map storeDefOfSnap ∧
    (∀ failP' : String → String → Bool,
      (restoredDb failP' dbData).stores = (restoredDb failPopulate dbData).stores) ∧
    (∀ o, o ≠ dbData.name →
      assocGet (restoreDatabase failPopulate env dbData) o = assocGet env o) ∧
    (∀ s ∈ dbData.objectStores, s.data.length > 0 →
      failPopulate dbData.name s.name = false →
      (s.name, s.data) ∈ (restoredDb failPopulate dbData).contents) ∧
    (∀ dbA dbB : DBSnap, dbA.name ≠ dbB.name →
      assocGet (setIndexedDBData failPopulate env [dbA, dbB]) dbA.name =
        some (restoredDb failPopulate dbA) ∧
      assocGet (setIndexedDBData failPopulate env [dbA, dbB]) dbB.name =
        some (restoredDb failPopulate dbB)) := by
  have hsame : ∀ (e : List (String × Database)) (d : DBSnap),
      assocGet (restoreDatabase failPopulate e d) d.name =
        some (restoredDb failPopulate d) := by
    intro e d
    unfold restoreDatabase assocGet
    rw [List.find?_append]
    have hnone : List.find? (fun p => p.1 == d.name)
        (e.filter (fun p => p.1 != d.name)) = none := by
      rw [List.find?_eq_none]
      intro x hx
      rcases List.mem_filter.mp hx with ⟨-, hxne⟩
      simpa using hxne
    simp [hnone, List.find?]
  have hne : ∀ (e : List (String × Database)) (d : DBSnap) (o : String), o ≠ d.name →
      assocGet (restoreDatabase failPopulate e d) o = assocGet e o := by
    intro e d o ho
    unfold restoreDatabase assocGet
    rw [List.find?_append]
    have hfilter : List.find? (fun p => p.1 == o) (e.filter (fun p => p.1 != d.name)) =
        List.find? (fun p => p.1 == o) e := by
      refine find?_filter_of_imp e _ _ ?_
      intro x hx
      have : x.1 = o := by simpa using hx
      simp [this, ho]
    have hdo : (d.name == o) = false := by simpa using Ne.symm ho
    have hlast : List.find? (fun p => p.1 == o) [(d.name, restoredDb failPopulate d)] =
        none := by
      simp [List.find?, hdo]
    simp [hfilter, hlast]
  refine ⟨hsame env dbData, rfl, rfl, fun _ => rfl, hne env dbData, ?_, ?_⟩
  · intro s hs hdata hfail
    unfold restoredDb
    refine List.mem_filterMap.mpr ⟨s, hs, ?_⟩
    rw [if_pos (by simp [hdata, hfail])]
  · intro dbA dbB hAB
    have hfold : setIndexedDBData failPopulate env [dbA, dbB] =
        restoreDatabase failPopulate (restoreDatabase failPopulate env dbA) dbB := rfl
    rw [hfold]
    constructor
    · rw [hne _ dbB dbA.name hAB, hsame env dbA]
    · exact hsame _ dbB

def c7Index : IndexSnap :=
  { name := "byName"
    keyPath := .single "name"
    unique := true
    multiEntry := false }

def c7Store1 : StoreSnap :=
  { name := "s1"
    keyPath := some (.single "id")
    autoIncrement := false
    indexes := [c7Index]
    data := [{ key := "k1", value := "v1" }] }

def c7Store2 : StoreSnap :=
  { name := "s2", keyPath := none, autoIncrement := true, indexes := []
    data := [{ key := "k2", value := "v2" }] }

def c7Snap : DBSnap := { name := "appdb", version := 3, objectStores := [c7Store1, c7Store2] }

/-- A population oracle under which store `s1` of `appdb` fails. -/
def c7FailP : String → String → Bool := fun db st => db == "appdb" && st == "s1"

def c7Env : List (String × Database) :=
  [("appdb", { version := 1, stores := [], contents := [] }),
   ("other", { version := 7, stores := [], contents := [] })]

/-- Witness for C7: the snapshot replaces the stale `appdb` at version 3
with its full two-store schema, leaves `other` untouched, and store `s2`
is populated even though `s1`'s population failed. -/
theorem restoreDatabase_spec_witness :
    assocGet (restoreDatabase c7FailP c7Env c7Snap) "appdb" =
      some (restoredDb c7FailP c7Snap) ∧
    (restoredDb c7FailP c7Snap).version = 3 ∧
    (restoredDb c7FailP c7Snap).stores = [storeDefOfSnap c7Store1, storeDefOfSnap c7Store2] ∧
    assocGet (restoreDatabase c7FailP c7Env c7Snap) "other" = assocGet c7Env "other" ∧
    ("s2", [({ key := "k2", value := "v2" } : RecordPair)]) ∈
      (restoredDb c7FailP c7Snap).contents := by
  have h := restoreDatabase_spec c7FailP c7Env c7Snap
  refine ⟨h.1, h.2.1, h.2.2.1, h.2.2.2.2.1 "other" (by decide), ?_⟩
  exact h.2.2.2.2.2.1 c7Store2 (by simp [c7Snap]) (by decide) (by decide)

/-! ### The setStorageData message handler (content.js)

`handleSetStorageData` embeds the `message.action === 'setStorageData'`
branch over an explicit page-storage state: optional clear-first of each
category (caches only when `includeCache`), then per-category restore of
whatever categories the message data carries.  `setCacheData` models
`cache.put(entry.url, reconstructed response)` as keyed overwrite per
URL inside each (created-if-missing) cache.
-/

structure PageState where
  localStorage : LSMap
  databases : List (String × Database)
  caches : List (String × List (String × CacheEntry))
deriving DecidableEq, Repr

def setCacheData (caches_data : List CacheSnap)
    (st : List (String × List (String × CacheEntry))) :
    List (String × List (String × CacheEntry)) :=
  caches_data.foldl (fun st cd =>
    assocSet st cd.name
      (cd.entries.foldl (fun c e => assocSet c e.url e) ((assocGet st cd.name).getD [])))
    st

def handleSetStorageData (msgData : OriginData) (clearFirst includeCache : Bool)
    (failPopulate : String → String → Bool) (st : PageState) : PageState :=
  let st :=
    if clearFirst then
      { localStorage := ([] : LSMap)
        databases := ([] : List (String × Database))
        caches := if includeCache then [] else st.caches }
    else st
  let st :=
    match msgData.localStorage with
    | some d => { st with localStorage := setLocalStorage d st.localStorage }
    | none => st
  let st :=
    match msgData.indexedDB with
    | some dbs => { st with databases := setIndexedDBData failPopulate st.databases dbs }
    | none => st
  if includeCache then
    match msgData.cacheStorage with
    | some cds => { st with caches := setCacheData cds st.caches }
    | none => st
  else st

theorem handleSetStorageData_localStorage (d : LSMap) (idb : Option (List DBSnap))
    (cch : Option (List CacheSnap)) (includeCache : Bool)
    (failP : String → String → Bool) (st : PageState) :
    (handleSetStorageData ⟨some d, idb, cch⟩ false includeCache failP st).localStorage =
      setLocalStorage d st.localStorage := by
  unfold handleSetStorageData
  cases idb <;> cases cch <;> cases includeCache <;> rfl

/-- C9: with `clearFirst = false`, applying the `setStorageData` handler
twice with the same snapshot (whose localStorage category is present)
yields the same final localStorage mapping as applying it once: each key
ends at the value of its last assignment, overwritten rather than
duplicated. -/
theorem setStorageData_localStorage_idempotent (d : LSMap)
    (idb : Option (List DBSnap)) (cch : Option (List CacheSnap)) (includeCache : Bool)
    (failP : String → String → Bool) (st : PageState) (k : String) :
    lsGet ((handleSetStorageData ⟨some d, idb, cch⟩ false includeCache failP
        (handleSetStorageData ⟨some d, idb, cch⟩ false includeCache failP st)).localStorage) k =
      lsGet ((handleSetStorageData ⟨some d, idb, cch⟩ false includeCache failP
        st).localStorage) k := by
  rw [handleSetStorageData_localStorage, handleSetStorageData_localStorage]
  rw [lsGet_setLocalStorage d (setLocalStorage d st.localStorage) k,
    lsGet_setLocalStorage d st.localStorage k]
  cases hlast : lastAssign d k with
  | some v => simp [hlast]
  | none => simp [hlast, lsGet_setLocalStorage]

end Ext
